import Mathlib

/-!
# Verification of the cortix perceptual spectrum analyser core

Shallow embedding of `src/rust/src/scales.rs`, `src/rust/src/gammatone.rs` and
`src/rust/src/analyser.rs` over the real numbers (`f32` arithmetic is modelled
by exact real arithmetic), together with proofs of the specification claims.
-/

namespace Cortix

noncomputable section

/-! ## Frequency scale conversions (`scales.rs`) -/

/-- `hz_to_bark` — Traunmüller formula, `scales.rs` line 15. -/
def hz_to_bark (hz : ℝ) : ℝ := 26.81 * hz / (1960 + hz) - 0.53

/-- `bark_to_hz` — inverse Traunmüller formula, `scales.rs` line 21. -/
def bark_to_hz (bark : ℝ) : ℝ := 1960 * (bark + 0.53) / (26.28 - bark)

/-- `critical_bandwidth` — Zwicker & Terhardt, `scales.rs` line 29. -/
def critical_bandwidth (hz : ℝ) : ℝ :=
  25 + 75 * (1 + 1.4 * (hz / 1000) * (hz / 1000)) ^ (0.69 : ℝ)

/-- `erb_bandwidth` — Glasberg & Moore, `scales.rs` line 40. -/
def erb_bandwidth (hz : ℝ) : ℝ := 24.7 * (4.37 * hz / 1000 + 1)

/-- `hz_to_erb` — `scales.rs` line 46 (`log10`). -/
def hz_to_erb (hz : ℝ) : ℝ := 21.4 * Real.logb 10 (4.37 * hz / 1000 + 1)

/-- `erb_to_hz` — `scales.rs` line 52 (`10.0f32.powf`). -/
def erb_to_hz (erb : ℝ) : ℝ := ((10 : ℝ) ^ (erb / 21.4) - 1) * 1000 / 4.37

/-- `hz_to_mel` — O'Shaughnessy, `scales.rs` line 63. -/
def hz_to_mel (hz : ℝ) : ℝ := 2595 * Real.logb 10 (1 + hz / 700)

/-- `mel_to_hz` — `scales.rs` line 69. -/
def mel_to_hz (mel : ℝ) : ℝ := 700 * ((10 : ℝ) ^ (mel / 2595) - 1)

/-- `Scale` — frequency scale variants, `scales.rs` line 79. -/
inductive Scale where
  | Linear
  | Log
  | Bark
  | ERB
  | Mel
  deriving DecidableEq

/-- `BandInfo` — `scales.rs` line 99. -/
structure BandInfo where
  center_hz : ℝ
  bandwidth_hz : ℝ
  low_hz : ℝ
  high_hz : ℝ

/-- `generate_bands` — `scales.rs` lines 111–201: each loop `for i in 0..num_bands`
becomes a map over `List.range num_bands`. -/
def generate_bands (scale : Scale) (num_bands : ℕ) (min_hz max_hz : ℝ) :
    List BandInfo :=
  match scale with
  | .Linear =>
      let step := (max_hz - min_hz) / num_bands
      (List.range num_bands).map (fun (i : ℕ) =>
        let low_hz := min_hz + i * step
        let high_hz := low_hz + step
        { low_hz := low_hz, high_hz := high_hz,
          center_hz := (low_hz + high_hz) / 2, bandwidth_hz := step })
  | .Log =>
      let log_min := Real.logb 2 min_hz
      let log_max := Real.logb 2 max_hz
      let step := (log_max - log_min) / num_bands
      (List.range num_bands).map (fun (i : ℕ) =>
        let low_hz := (2 : ℝ) ^ (log_min + i * step)
        let high_hz := (2 : ℝ) ^ (log_min + (i + 1) * step)
        { low_hz := low_hz, high_hz := high_hz,
          center_hz := Real.sqrt (low_hz * high_hz),
          bandwidth_hz := high_hz - low_hz })
  | .Bark =>
      let bark_min := hz_to_bark min_hz
      let bark_max := hz_to_bark max_hz
      let step := (bark_max - bark_min) / num_bands
      (List.range num_bands).map (fun (i : ℕ) =>
        let bark_low := bark_min + i * step
        let bark_high := bark_min + (i + 1) * step
        let low_hz := bark_to_hz bark_low
        let high_hz := bark_to_hz bark_high
        { low_hz := low_hz, high_hz := high_hz,
          center_hz := bark_to_hz ((bark_low + bark_high) / 2),
          bandwidth_hz := high_hz - low_hz })
  | .ERB =>
      let erb_min := hz_to_erb min_hz
      let erb_max := hz_to_erb max_hz
      let step := (erb_max - erb_min) / num_bands
      (List.range num_bands).map (fun (i : ℕ) =>
        let erb_low := erb_min + i * step
        let erb_high := erb_min + (i + 1) * step
        let low_hz := erb_to_hz erb_low
        let high_hz := erb_to_hz erb_high
        { low_hz := low_hz, high_hz := high_hz,
          center_hz := erb_to_hz ((erb_low + erb_high) / 2),
          bandwidth_hz := high_hz - low_hz })
  | .Mel =>
      let mel_min := hz_to_mel min_hz
      let mel_max := hz_to_mel max_hz
      let step := (mel_max - mel_min) / num_bands
      (List.range num_bands).map (fun (i : ℕ) =>
        let mel_low := mel_min + i * step
        let mel_high := mel_min + (i + 1) * step
        let low_hz := mel_to_hz mel_low
        let high_hz := mel_to_hz mel_high
        { low_hz := low_hz, high_hz := high_hz,
          center_hz := mel_to_hz ((mel_low + mel_high) / 2),
          bandwidth_hz := high_hz - low_hz })

/-! ## Round-trip identities of the scale conversions -/

theorem bark_roundtrip (hz : ℝ) (h : 0 < hz) : bark_to_hz (hz_to_bark hz) = hz := by
  have h1960 : (1960 : ℝ) + hz > 0 := by linarith
  have hne : (1960 : ℝ) + hz ≠ 0 := ne_of_gt h1960
  unfold bark_to_hz hz_to_bark
  have hden : 26.28 - (26.81 * hz / (1960 + hz) - 0.53) = 26.81 * 1960 / (1960 + hz) := by
    field_simp
    ring
  rw [hden]
  have hdenne : (26.81 : ℝ) * 1960 / (1960 + hz) ≠ 0 := by
    apply div_ne_zero (by norm_num) hne
  field_simp
  ring

theorem erb_roundtrip (hz : ℝ) (h : 0 < hz) : erb_to_hz (hz_to_erb hz) = hz := by
  have harg : (0 : ℝ) < 4.37 * hz / 1000 + 1 := by positivity
  unfold erb_to_hz hz_to_erb
  have h214 : (21.4 : ℝ) * Real.logb 10 (4.37 * hz / 1000 + 1) / 21.4
      = Real.logb 10 (4.37 * hz / 1000 + 1) := by
    field_simp
  rw [h214, Real.rpow_logb (by norm_num) (by norm_num) harg]
  ring

theorem mel_roundtrip (hz : ℝ) (h : 0 < hz) : mel_to_hz (hz_to_mel hz) = hz := by
  have harg : (0 : ℝ) < 1 + hz / 700 := by positivity
  unfold mel_to_hz hz_to_mel
  have h2595 : (2595 : ℝ) * Real.logb 10 (1 + hz / 700) / 2595
      = Real.logb 10 (1 + hz / 700) := by
    field_simp
  rw [h2595, Real.rpow_logb (by norm_num) (by norm_num) harg]
  ring

/-- C9: over 20 Hz – 20 kHz all three perceptual round trips are within 1 %
relative error of the input frequency (in the real-number model they are exact,
so the error is 0 < 1 % of hz). -/
theorem scale_roundtrips_within_one_percent (hz : ℝ)
    (h1 : 20 ≤ hz) (h2 : hz ≤ 20000) :
    |bark_to_hz (hz_to_bark hz) - hz| < 0.01 * hz ∧
    |erb_to_hz (hz_to_erb hz) - hz| < 0.01 * hz ∧
    |mel_to_hz (hz_to_mel hz) - hz| < 0.01 * hz := by
  have h0 : 0 < hz := by linarith
  rw [bark_roundtrip hz h0, erb_roundtrip hz h0, mel_roundtrip hz h0]
  simp only [sub_self, abs_zero]
  refine ⟨by positivity, by positivity, by positivity⟩

/-- Witness for C9 at hz = 1000. -/
theorem scale_roundtrips_within_one_percent_witness :
    (20 : ℝ) ≤ 1000 ∧ (1000 : ℝ) ≤ 20000 ∧
    (|bark_to_hz (hz_to_bark 1000) - 1000| < 0.01 * 1000 ∧
     |erb_to_hz (hz_to_erb 1000) - 1000| < 0.01 * 1000 ∧
     |mel_to_hz (hz_to_mel 1000) - 1000| < 0.01 * 1000) :=
  ⟨by norm_num, by norm_num,
    scale_roundtrips_within_one_percent 1000 (by norm_num) (by norm_num)⟩

/-! ## Gammatone filter (`gammatone.rs`, single band) -/

/-- `GammatoneFilter` — `gammatone.rs` line 23.  The `state_real`/`state_imag`
arrays of length 4 are modelled as four (real, imag) pairs, one per cascade
stage. -/
@[ext]
structure GammatoneFilter where
  center_hz : ℝ
  sample_rate : ℝ
  r : ℝ
  cos_omega : ℝ
  sin_omega : ℝ
  gain : ℝ
  state0 : ℝ × ℝ
  state1 : ℝ × ℝ
  state2 : ℝ × ℝ
  state3 : ℝ × ℝ

/-- Magnitude of a (real, imag) state pair, `(real*real + imag*imag).sqrt` as in
`gammatone.rs` line 113. -/
def cnorm (v : ℝ × ℝ) : ℝ := Real.sqrt (v.1 * v.1 + v.2 * v.2)

/-- `Default for GammatoneFilter` — `gammatone.rs` line 37. -/
def GammatoneFilter.default : GammatoneFilter where
  center_hz := 1000
  sample_rate := 48000
  r := 0
  cos_omega := 0
  sin_omega := 0
  gain := 1
  state0 := (0, 0)
  state1 := (0, 0)
  state2 := (0, 0)
  state3 := (0, 0)

instance : Inhabited GammatoneFilter := ⟨GammatoneFilter.default⟩

/-- `GammatoneFilter::new` = `default` then `configure` — `gammatone.rs`
lines 53–81.  `configure` overwrites every parameter field and ends with
`reset()`, so the result is a pure function of its three arguments. -/
def GammatoneFilter.new (center_hz bandwidth_hz sample_rate : ℝ) :
    GammatoneFilter :=
  let omega := 2 * Real.pi * center_hz / sample_rate
  let bw := 2 * Real.pi * bandwidth_hz / sample_rate
  let r := Real.exp (-bw)
  { center_hz := center_hz
    sample_rate := sample_rate
    r := r
    cos_omega := Real.cos omega
    sin_omega := Real.sin omega
    gain := (1 - r) ^ 4 * 2
    state0 := (0, 0)
    state1 := (0, 0)
    state2 := (0, 0)
    state3 := (0, 0) }

/-- `GammatoneFilter::reset` — `gammatone.rs` line 84. -/
def GammatoneFilter.reset (f : GammatoneFilter) : GammatoneFilter :=
  { f with state0 := (0, 0), state1 := (0, 0), state2 := (0, 0), state3 := (0, 0) }

/-- One cascade stage of `GammatoneFilter::process` — `gammatone.rs`
lines 100–103: `new = in + r * (p-rotation of state)`. -/
def resonate (r c s : ℝ) (inp st : ℝ × ℝ) : ℝ × ℝ :=
  (inp.1 + r * (c * st.1 - s * st.2), inp.2 + r * (s * st.1 + c * st.2))

/-- `GammatoneFilter::process` — `gammatone.rs` lines 91–114: input gain, four
cascaded resonator stages each feeding the next, output is the magnitude of the
final stage's new state. -/
def GammatoneFilter.process (f : GammatoneFilter) (input : ℝ) :
    ℝ × GammatoneFilter :=
  let n0 := resonate f.r f.cos_omega f.sin_omega (input * f.gain, 0) f.state0
  let n1 := resonate f.r f.cos_omega f.sin_omega n0 f.state1
  let n2 := resonate f.r f.cos_omega f.sin_omega n1 f.state2
  let n3 := resonate f.r f.cos_omega f.sin_omega n2 f.state3
  (cnorm n3, { f with state0 := n0, state1 := n1, state2 := n2, state3 := n3 })

/-- Repeated application of `GammatoneFilter::process` along a sample list,
collecting the returned magnitudes (the per-sample loop of
`GammatoneFilter::process_block`, `gammatone.rs` line 117). -/
def GammatoneFilter.processList (f : GammatoneFilter) :
    List ℝ → List ℝ × GammatoneFilter
  | [] => ([], f)
  | x :: rest =>
      let step := f.process x
      let tail := step.2.processList rest
      (step.1 :: tail.1, tail.2)

theorem pole_radius_bounds (center_hz bandwidth_hz sample_rate : ℝ)
    (hbw : 0 < bandwidth_hz) (hsr : 0 < sample_rate) :
    0 < (GammatoneFilter.new center_hz bandwidth_hz sample_rate).r ∧
    (GammatoneFilter.new center_hz bandwidth_hz sample_rate).r < 1 := by
  have hpos : 0 < 2 * Real.pi * bandwidth_hz / sample_rate := by
    have := Real.pi_pos
    positivity
  constructor
  · exact Real.exp_pos _
  · show Real.exp (-(2 * Real.pi * bandwidth_hz / sample_rate)) < 1
    rw [Real.exp_lt_one_iff]
    linarith

/-- C4: for every positive bandwidth and sample rate the pole radius
`r = exp(-(2*pi*bandwidth_hz/sample_rate))` computed by
`GammatoneFilter::configure` lies strictly between 0 and 1. -/
theorem pole_radius_in_unit_interval (center_hz bandwidth_hz sample_rate : ℝ)
    (hbw : 0 < bandwidth_hz) (hsr : 0 < sample_rate) :
    0 < (GammatoneFilter.new center_hz bandwidth_hz sample_rate).r ∧
    (GammatoneFilter.new center_hz bandwidth_hz sample_rate).r < 1 :=
  pole_radius_bounds center_hz bandwidth_hz sample_rate hbw hsr

/-- Witness for C4 at center 1000 Hz, bandwidth 100 Hz, sample rate 48 kHz. -/
theorem pole_radius_in_unit_interval_witness :
    (0 : ℝ) < 100 ∧ (0 : ℝ) < 48000 ∧
    (0 < (GammatoneFilter.new 1000 100 48000).r ∧
     (GammatoneFilter.new 1000 100 48000).r < 1) :=
  ⟨by norm_num, by norm_num,
    pole_radius_in_unit_interval 1000 100 48000 (by norm_num) (by norm_num)⟩

/-! ## Gammatone filterbank (`gammatone.rs`) -/

/-- `FilterbankConfig` — `gammatone.rs` line 136. -/
structure FilterbankConfig where
  num_bands : ℕ
  min_hz : ℝ
  max_hz : ℝ
  sample_rate : ℝ
  spacing : Scale
  smoothing_ms : ℝ

/-- `Default for FilterbankConfig` — `gammatone.rs` line 152. -/
def FilterbankConfig.default : FilterbankConfig where
  num_bands := 40
  min_hz := 20
  max_hz := 20000
  sample_rate := 48000
  spacing := .ERB
  smoothing_ms := 5

/-- `GammatoneFilterbank` — `gammatone.rs` line 166. -/
@[ext]
structure GammatoneFilterbank where
  config : FilterbankConfig
  bands : List BandInfo
  filters : List GammatoneFilter
  magnitudes : List ℝ
  smoothed_magnitudes : List ℝ
  smooth_coeff : ℝ

/-- `GammatoneFilterbank::configure` — `gammatone.rs` lines 211–237.  Every
field of the receiver is overwritten, so the result is a pure function of the
configuration.  Each filter uses `erb_bandwidth(band.center_hz)` regardless of
the spacing scale; `smooth_coeff = exp(-1/(tau*sample_rate))`, `tau =
smoothing_ms/1000`, or `0` when `smoothing_ms <= 0`. -/
def GammatoneFilterbank.configure (config : FilterbankConfig) :
    GammatoneFilterbank where
  config := config
  bands := generate_bands config.spacing config.num_bands config.min_hz config.max_hz
  filters :=
    (generate_bands config.spacing config.num_bands config.min_hz config.max_hz).map
      (fun band =>
        GammatoneFilter.new band.center_hz (erb_bandwidth band.center_hz)
          config.sample_rate)
  magnitudes := List.replicate config.num_bands 0
  smoothed_magnitudes := List.replicate config.num_bands 0
  smooth_coeff :=
    if config.smoothing_ms > 0 then
      Real.exp (-1 / (config.smoothing_ms / 1000 * config.sample_rate))
    else 0

/-- `GammatoneFilterbank::with_config` — `gammatone.rs` lines 197–208:
builds an empty bank and immediately calls `configure`. -/
def GammatoneFilterbank.with_config (config : FilterbankConfig) :
    GammatoneFilterbank :=
  GammatoneFilterbank.configure config

/-- `GammatoneFilterbank::reset` — `gammatone.rs` lines 240–246: reset every
filter, `fill(0.0)` on both buffers (length preserving). -/
def GammatoneFilterbank.reset (fb : GammatoneFilterbank) : GammatoneFilterbank :=
  { fb with
    filters := fb.filters.map GammatoneFilter.reset
    magnitudes := fb.magnitudes.map (fun _ => 0)
    smoothed_magnitudes := fb.smoothed_magnitudes.map (fun _ => 0) }

/-- `GammatoneFilterbank::process` — `gammatone.rs` lines 250–263: run every
filter on the sample, store the magnitudes, then one-pole smooth the envelope
buffer (`env = coeff*env + (1-coeff)*mag` when `smooth_coeff > 0`, else
`env = mag`).  The indexed writes `magnitudes[i] = mag` are modelled by
rebuilding the parallel lists, which agrees with the source whenever the
buffers have the configured per-band length. -/
def GammatoneFilterbank.process (fb : GammatoneFilterbank) (input : ℝ) :
    GammatoneFilterbank :=
  let results := fb.filters.map (fun f => f.process input)
  { fb with
    filters := results.map Prod.snd
    magnitudes := results.map Prod.fst
    smoothed_magnitudes :=
      List.zipWith
        (fun env mag =>
          if fb.smooth_coeff > 0 then
            fb.smooth_coeff * env + (1 - fb.smooth_coeff) * mag
          else mag)
        fb.smoothed_magnitudes (results.map Prod.fst) }

/-- `GammatoneFilterbank::process_block` — `gammatone.rs` lines 266–270. -/
def GammatoneFilterbank.process_block (fb : GammatoneFilterbank)
    (input : List ℝ) : GammatoneFilterbank :=
  input.foldl GammatoneFilterbank.process fb

/-- `GammatoneFilterbank::num_bands` — `gammatone.rs` line 273. -/
def GammatoneFilterbank.num_bands (fb : GammatoneFilterbank) : ℕ :=
  fb.config.num_bands

/-- Modelled from the spec: `analyser.rs` calls `GammatoneFilterbank::envelope`,
which is not under `src/`; per the spec the envelope is the smoothed-magnitude
buffer ("Envelope: smoothed per-band magnitude output"). -/
def GammatoneFilterbank.envelope (fb : GammatoneFilterbank) : List ℝ :=
  fb.smoothed_magnitudes

/-! ## Analyser facade (`analyser.rs`) -/

/-- `AnalysisMode` — `analyser.rs` line 17. -/
inductive AnalysisMode where
  | Gammatone
  deriving DecidableEq

/-- `AnalyserBuilder` — `analyser.rs` line 33. -/
structure AnalyserBuilder where
  mode : AnalysisMode
  scale : Scale
  num_bands : ℕ
  min_hz : ℝ
  max_hz : ℝ
  sample_rate : ℝ
  smoothing_ms : ℝ

/-- `Default for AnalyserBuilder` — `analyser.rs` line 44. -/
def AnalyserBuilder.default : AnalyserBuilder where
  mode := .Gammatone
  scale := .ERB
  num_bands := 40
  min_hz := 20
  max_hz := 20000
  sample_rate := 48000
  smoothing_ms := 5

/-- `Analyser` — `analyser.rs` line 143. -/
structure Analyser where
  mode : AnalysisMode
  num_bands : ℕ
  sample_rate : ℝ
  gammatone : GammatoneFilterbank
  mono_buffer : List ℝ

/-- `AnalyserBuilder::build` — `analyser.rs` lines 102–118.  Modelled from the
spec for the filterbank construction: `build` calls
`GammatoneFilterbank::builder()...build()`, which is not under `src/`; per the
spec the fluent builder and the configuration struct are "equivalent
capabilities", so the filterbank is built through `with_config` from the same
field values. -/
def AnalyserBuilder.build (b : AnalyserBuilder) : Analyser where
  mode := b.mode
  num_bands := b.num_bands
  sample_rate := b.sample_rate
  gammatone :=
    GammatoneFilterbank.with_config
      { num_bands := b.num_bands
        min_hz := b.min_hz
        max_hz := b.max_hz
        sample_rate := b.sample_rate
        spacing := b.scale
        smoothing_ms := b.smoothing_ms }
  mono_buffer := []

/-- `Analyser::process` — `analyser.rs` lines 177–184: dispatch on the mode,
feed the block to the filterbank and return the envelope.  The filterbank
block-processing call `gammatone.process(input)` is not under `src/`; per the
spec ("`process(block)` applies this per sample in order") it is
`process_block`, and `envelope()` is the smoothed-magnitude buffer. -/
def Analyser.process (a : Analyser) (input : List ℝ) : List ℝ × Analyser :=
  match a.mode with
  | .Gammatone =>
      let g := a.gammatone.process_block input
      (g.envelope, { a with gammatone := g })

/-- `Analyser::process_stereo` — `analyser.rs` lines 188–199: mix
`(left[i] + right[i]) * 0.5` over the first `min(len, len)` samples into the
scratch `mono_buffer` (the `resize` + indexed writes are the truncating
`zipWith`), then delegate to the mono path. -/
def Analyser.process_stereo (a : Analyser) (left right : List ℝ) :
    List ℝ × Analyser :=
  let mono := List.zipWith (fun l r => (l + r) * 0.5) left right
  Analyser.process { a with mono_buffer := mono } mono

instance : Inhabited BandInfo := ⟨⟨0, 0, 0, 0⟩⟩

/-! ## Structural lemmas -/

theorem generate_bands_length (scale : Scale) (n : ℕ) (min_hz max_hz : ℝ) :
    (generate_bands scale n min_hz max_hz).length = n := by
  cases scale <;>
    simp only [generate_bands, List.length_map, List.length_range]

/-- Per-band buffer alignment predicate: all four per-band sequences have the
configured length. -/
def bankSized (fb : GammatoneFilterbank) : Prop :=
  fb.bands.length = fb.num_bands ∧
  fb.filters.length = fb.num_bands ∧
  fb.magnitudes.length = fb.num_bands ∧
  fb.smoothed_magnitudes.length = fb.num_bands

theorem configure_sized (cfg : FilterbankConfig) :
    bankSized (GammatoneFilterbank.configure cfg) := by
  refine ⟨?_, ?_, ?_, ?_⟩ <;>
    simp [bankSized, GammatoneFilterbank.configure, GammatoneFilterbank.num_bands,
      generate_bands_length]

theorem process_sized (fb : GammatoneFilterbank) (x : ℝ)
    (h : bankSized fb) : bankSized (fb.process x) := by
  obtain ⟨hb, hf, hm, hs⟩ := h
  refine ⟨?_, ?_, ?_, ?_⟩ <;>
    simp [GammatoneFilterbank.process, GammatoneFilterbank.num_bands,
      List.length_zipWith, hb, hf, hm, hs]

theorem process_block_sized (fb : GammatoneFilterbank) (xs : List ℝ)
    (h : bankSized fb) : bankSized (fb.process_block xs) := by
  induction xs generalizing fb with
  | nil => exact h
  | cons x rest ih =>
      exact ih (fb.process x) (process_sized fb x h)

theorem reset_sized (fb : GammatoneFilterbank) (h : bankSized fb) :
    bankSized fb.reset := by
  obtain ⟨hb, hf, hm, hs⟩ := h
  refine ⟨hb, ?_, ?_, ?_⟩ <;>
    simp [GammatoneFilterbank.reset, GammatoneFilterbank.num_bands,
      List.length_map, hf, hm, hs] at *

/-- C10: after `configure` every per-band sequence (bands, filters, raw
magnitudes, smoothed magnitudes) has length exactly `num_bands`, and `process`,
`process_block` and `reset` preserve this alignment, so `num_bands()` always
equals the length of every per-band buffer. -/
theorem filterbank_buffers_aligned (cfg : FilterbankConfig) (x : ℝ)
    (xs : List ℝ) (fb : GammatoneFilterbank) (hfb : bankSized fb) :
    bankSized (GammatoneFilterbank.configure cfg) ∧
    bankSized (fb.process x) ∧
    bankSized (fb.process_block xs) ∧
    bankSized fb.reset :=
  ⟨configure_sized cfg, process_sized fb x hfb, process_block_sized fb xs hfb,
    reset_sized fb hfb⟩

/-- Witness for C10 with the default configuration (also checking the
`num_bands = 0` case through the universally quantified `cfg`). -/
theorem filterbank_buffers_aligned_witness :
    bankSized (GammatoneFilterbank.configure FilterbankConfig.default) ∧
    (bankSized (GammatoneFilterbank.configure FilterbankConfig.default) ∧
     bankSized ((GammatoneFilterbank.configure FilterbankConfig.default).process 0) ∧
     bankSized ((GammatoneFilterbank.configure FilterbankConfig.default).process_block []) ∧
     bankSized (GammatoneFilterbank.configure FilterbankConfig.default).reset) := by
  have h : bankSized (GammatoneFilterbank.configure FilterbankConfig.default) :=
    configure_sized FilterbankConfig.default
  exact ⟨h, filterbank_buffers_aligned FilterbankConfig.default 0 []
    (GammatoneFilterbank.configure FilterbankConfig.default) h⟩

/-- C8: every filter of a configured filterbank is built at its band's center
frequency with the ERB bandwidth of that center, whatever the spacing scale. -/
theorem filters_use_erb_bandwidth (cfg : FilterbankConfig) (i : ℕ)
    (hi : i < cfg.num_bands) :
    (GammatoneFilterbank.configure cfg).filters.getD i default =
      GammatoneFilter.new
        ((GammatoneFilterbank.configure cfg).bands.getD i default).center_hz
        (erb_bandwidth
          ((GammatoneFilterbank.configure cfg).bands.getD i default).center_hz)
        cfg.sample_rate := by
  have hb : (generate_bands cfg.spacing cfg.num_bands cfg.min_hz cfg.max_hz).length
      = cfg.num_bands := generate_bands_length _ _ _ _
  have hf : (GammatoneFilterbank.configure cfg).filters.length = cfg.num_bands := by
    simp [GammatoneFilterbank.configure, hb]
  have hb' : (GammatoneFilterbank.configure cfg).bands.length = cfg.num_bands := hb
  rw [List.getD_eq_getElem _ _ (by rw [hf]; exact hi),
      List.getD_eq_getElem _ _ (by rw [hb']; exact hi)]
  simp [GammatoneFilterbank.configure]

/-- Witness for C8 with the default configuration at band 0. -/
theorem filters_use_erb_bandwidth_witness :
    0 < FilterbankConfig.default.num_bands ∧
    (GammatoneFilterbank.configure FilterbankConfig.default).filters.getD 0 default =
      GammatoneFilter.new
        ((GammatoneFilterbank.configure FilterbankConfig.default).bands.getD 0 default).center_hz
        (erb_bandwidth
          ((GammatoneFilterbank.configure FilterbankConfig.default).bands.getD 0 default).center_hz)
        FilterbankConfig.default.sample_rate :=
  ⟨by decide, filters_use_erb_bandwidth FilterbankConfig.default 0 (by decide)⟩

/-! ## C7: stereo of two identical channels vs mono -/

theorem mix_self (s : List ℝ) :
    List.zipWith (fun l r => (l + r) * 0.5) s s = s := by
  induction s with
  | nil => rfl
  | cons x xs ih =>
      simp only [List.zipWith_cons_cons, ih]
      congr 1
      ring

/-- C7 counterexample: on a freshly built analyser, `process_stereo(s, s)` and
`process(s)` do not leave bit-for-bit identical internal state — the scratch
`mono_buffer` ends up holding the mixed signal on the stereo path only. -/
theorem process_stereo_state_differs :
    (AnalyserBuilder.default.build.process_stereo [1] [1]).2 ≠
      (AnalyserBuilder.default.build.process [1]).2 := by
  intro h
  have hmb := congrArg Analyser.mono_buffer h
  simp [AnalyserBuilder.build, AnalyserBuilder.default, Analyser.process,
    Analyser.process_stereo] at hmb

/-- C7 (amended): `process_stereo(s, s)` returns the same output as
`process(s)` and leaves the analysis state (the gammatone filterbank, plus the
mode, band count and sample rate) identical; only the scratch `mono_buffer`
differs, ending up equal to the input signal itself. -/
theorem process_stereo_self_eq_mono (a : Analyser) (s : List ℝ) :
    (a.process_stereo s s).1 = (a.process s).1 ∧
    (a.process_stereo s s).2.gammatone = (a.process s).2.gammatone ∧
    (a.process_stereo s s).2.mode = (a.process s).2.mode ∧
    (a.process_stereo s s).2.num_bands = (a.process s).2.num_bands ∧
    (a.process_stereo s s).2.sample_rate = (a.process s).2.sample_rate ∧
    (a.process_stereo s s).2.mono_buffer = s := by
  obtain ⟨mode, nb, sr, g, mb⟩ := a
  cases mode
  simp only [Analyser.process_stereo]
  rw [mix_self]
  simp [Analyser.process]

/-! ## C5: one-pole envelope smoothing -/

/-- The smoothing coefficient of the spec: `α = exp(−1/(τ·sample_rate))` with
`τ = smoothing_ms/1000`, treated as 0 when `smoothing_ms ≤ 0`.  This is exactly
the `smooth_coeff` computed by `GammatoneFilterbank::configure`
(`gammatone.rs` lines 226–232). -/
def smoothingAlpha (cfg : FilterbankConfig) : ℝ :=
  if cfg.smoothing_ms > 0 then
    Real.exp (-1 / (cfg.smoothing_ms / 1000 * cfg.sample_rate))
  else 0

theorem configure_smooth_coeff (cfg : FilterbankConfig) :
    (GammatoneFilterbank.configure cfg).smooth_coeff = smoothingAlpha cfg := rfl

theorem process_smooth_coeff (fb : GammatoneFilterbank) (x : ℝ) :
    (fb.process x).smooth_coeff = fb.smooth_coeff := rfl

theorem process_config (fb : GammatoneFilterbank) (x : ℝ) :
    (fb.process x).config = fb.config := rfl

theorem process_num_bands (fb : GammatoneFilterbank) (x : ℝ) :
    (fb.process x).num_bands = fb.num_bands := rfl

theorem process_block_smooth_coeff (fb : GammatoneFilterbank) (xs : List ℝ) :
    (fb.process_block xs).smooth_coeff = fb.smooth_coeff := by
  induction xs generalizing fb with
  | nil => rfl
  | cons x rest ih => exact ih (fb.process x)

theorem process_block_config (fb : GammatoneFilterbank) (xs : List ℝ) :
    (fb.process_block xs).config = fb.config := by
  induction xs generalizing fb with
  | nil => rfl
  | cons x rest ih => exact ih (fb.process x)

/-- C5: each `process` call on a configured filterbank (after any amount of
prior processing) updates band `i`'s envelope as
`env_i = α·env_i + (1−α)·mag_i`, where `mag_i` is the band's instantaneous
magnitude on this sample and `α = exp(−1/(τ·sample_rate))`,
`τ = smoothing_ms/1000`, with `α` treated as 0 when `smoothing_ms ≤ 0`. -/
theorem envelope_one_pole_update (cfg : FilterbankConfig) (xs : List ℝ)
    (x : ℝ) (i : ℕ) (hi : i < cfg.num_bands) :
    (((GammatoneFilterbank.configure cfg).process_block xs).process x).smoothed_magnitudes.getD i 0 =
      smoothingAlpha cfg *
        ((GammatoneFilterbank.configure cfg).process_block xs).smoothed_magnitudes.getD i 0 +
      (1 - smoothingAlpha cfg) *
        ((((GammatoneFilterbank.configure cfg).process_block xs).filters.getD i default).process x).1 ∧
    smoothingAlpha cfg =
      (if cfg.smoothing_ms > 0 then
        Real.exp (-1 / (cfg.smoothing_ms / 1000 * cfg.sample_rate))
      else 0) := by
  refine ⟨?_, rfl⟩
  have hsz : bankSized ((GammatoneFilterbank.configure cfg).process_block xs) :=
    process_block_sized _ xs (configure_sized cfg)
  set fb := (GammatoneFilterbank.configure cfg).process_block xs with hfb
  obtain ⟨hb, hf, hm, hs⟩ := hsz
  have hn : fb.num_bands = cfg.num_bands := by
    show (fb.config).num_bands = cfg.num_bands
    rw [hfb, process_block_config]
    rfl
  have hsc : fb.smooth_coeff = smoothingAlpha cfg := by
    rw [hfb, process_block_smooth_coeff, configure_smooth_coeff]
  have hif : i < fb.filters.length := by rw [hf, hn]; exact hi
  have his : i < fb.smoothed_magnitudes.length := by rw [hs, hn]; exact hi
  have hiz : i < ((fb.process x).smoothed_magnitudes).length := by
    have h2 := process_sized fb x ⟨hb, hf, hm, hs⟩
    rw [h2.2.2.2, process_num_bands, hn]
    exact hi
  rw [List.getD_eq_getElem _ _ hiz, List.getD_eq_getElem _ _ his,
      List.getD_eq_getElem _ _ hif]
  simp only [GammatoneFilterbank.process, List.getElem_zipWith, List.getElem_map]
  simp only [hsc]
  by_cases hsm : cfg.smoothing_ms > 0
  · have hpos : smoothingAlpha cfg > 0 := by
      simp only [smoothingAlpha, hsm, if_true]
      exact Real.exp_pos _
    rw [if_pos hpos]
  · have hzero : smoothingAlpha cfg = 0 := by
      simp only [smoothingAlpha, hsm, if_false]
    rw [hzero]
    simp only [gt_iff_lt, lt_self_iff_false, if_false]
    ring

/-- Witness for C5: default configuration, no prior samples, sample 0, band 0. -/
theorem envelope_one_pole_update_witness :
    0 < FilterbankConfig.default.num_bands ∧
    ((((GammatoneFilterbank.configure FilterbankConfig.default).process_block []).process 0).smoothed_magnitudes.getD 0 0 =
      smoothingAlpha FilterbankConfig.default *
        ((GammatoneFilterbank.configure FilterbankConfig.default).process_block []).smoothed_magnitudes.getD 0 0 +
      (1 - smoothingAlpha FilterbankConfig.default) *
        ((((GammatoneFilterbank.configure FilterbankConfig.default).process_block []).filters.getD 0 default).process 0).1 ∧
     smoothingAlpha FilterbankConfig.default =
      (if FilterbankConfig.default.smoothing_ms > 0 then
        Real.exp (-1 / (FilterbankConfig.default.smoothing_ms / 1000 * FilterbankConfig.default.sample_rate))
      else 0)) :=
  ⟨by decide, envelope_one_pole_update FilterbankConfig.default [] 0 0 (by decide)⟩

/-! ## C6: reset equals a freshly constructed filterbank -/

theorem filter_reset_after_process (f : GammatoneFilter) (x : ℝ) :
    ((f.process x).2).reset = f.reset := rfl

theorem filter_reset_new (c bw sr : ℝ) :
    (GammatoneFilter.new c bw sr).reset = GammatoneFilter.new c bw sr := rfl

/-- Resetting a freshly configured filterbank changes nothing. -/
theorem configure_reset (cfg : FilterbankConfig) :
    (GammatoneFilterbank.configure cfg).reset = GammatoneFilterbank.configure cfg := by
  unfold GammatoneFilterbank.configure GammatoneFilterbank.reset
  congr 1
  · rw [List.map_map]
    rfl
  · simp
  · simp

/-- Resetting after one `process` call is the same as resetting before it,
provided the per-band buffers are aligned. -/
theorem reset_after_process (fb : GammatoneFilterbank) (x : ℝ)
    (h : bankSized fb) : (fb.process x).reset = fb.reset := by
  obtain ⟨hb, hf, hm, hs⟩ := h
  unfold GammatoneFilterbank.process GammatoneFilterbank.reset
  congr 1
  · rw [List.map_map, List.map_map]
    rfl
  · simp only [List.map_map, Function.comp_def, List.map_const',
      List.length_map, hf, hm]
  · simp only [List.map_const', List.length_zipWith, List.length_map, hf, hs]
    simp

/-- C6: for every configuration and every sample sequence, `reset()` after
processing yields a filterbank equal (field by field, filter state and both
output buffers included) to a freshly constructed one with the same
configuration. -/
theorem reset_equals_fresh (cfg : FilterbankConfig) (xs : List ℝ) :
    ((GammatoneFilterbank.with_config cfg).process_block xs).reset =
      GammatoneFilterbank.with_config cfg := by
  unfold GammatoneFilterbank.with_config
  suffices h : ∀ fb, bankSized fb →
      fb.reset = GammatoneFilterbank.configure cfg →
      (fb.process_block xs).reset = GammatoneFilterbank.configure cfg by
    exact h _ (configure_sized cfg) (configure_reset cfg)
  induction xs with
  | nil => intro fb _ h2; exact h2
  | cons x rest ih =>
      intro fb hsz hres
      show ((fb.process x).process_block rest).reset = _
      exact ih (fb.process x) (process_sized fb x hsz)
        ((reset_after_process fb x hsz).trans hres)

/-! ## C3: bounded input, bounded output (BIBO stability) -/

/-- View a (real, imag) state pair as a complex number. -/
def toC (v : ℝ × ℝ) : ℂ := ⟨v.1, v.2⟩

theorem cnorm_eq_abs (v : ℝ × ℝ) : cnorm v = Complex.abs (toC v) := by
  rw [cnorm, toC, Complex.abs_apply, Complex.normSq_mk]

theorem cnorm_nonneg (v : ℝ × ℝ) : 0 ≤ cnorm v := Real.sqrt_nonneg _

theorem cnorm_pair_zero (a : ℝ) : cnorm (a, 0) = |a| := by
  rw [cnorm]
  simp only [mul_zero, add_zero]
  exact Real.sqrt_mul_self_eq_abs a

/-- A resonator stage is the complex multiply–accumulate `inp + p·st` with pole
`p = r·(cos ω + i·sin ω)`. -/
theorem toC_resonate (r c s : ℝ) (inp st : ℝ × ℝ) :
    toC (resonate r c s inp st) = toC inp + (⟨r * c, r * s⟩ : ℂ) * toC st := by
  apply Complex.ext <;>
    simp [resonate, toC, Complex.add_re, Complex.add_im, Complex.mul_re,
      Complex.mul_im] <;>
    ring

theorem abs_pole (r c s : ℝ) (hr : 0 ≤ r) (hcs : c * c + s * s = 1) :
    Complex.abs (⟨r * c, r * s⟩ : ℂ) = r := by
  have h2 : Complex.normSq ⟨r * c, r * s⟩ = r * r := by
    rw [Complex.normSq_mk]
    linear_combination (r * r) * hcs
  rw [Complex.abs_apply, h2]
  exact Real.sqrt_mul_self hr

/-- The triangle inequality for one resonator stage: with pole radius `r`, the
new state magnitude is at most the input magnitude plus `r` times the old state
magnitude. -/
theorem cnorm_resonate_le (r c s : ℝ) (hr : 0 ≤ r) (hcs : c * c + s * s = 1)
    (inp st : ℝ × ℝ) :
    cnorm (resonate r c s inp st) ≤ cnorm inp + r * cnorm st := by
  rw [cnorm_eq_abs, cnorm_eq_abs, cnorm_eq_abs, toC_resonate]
  calc Complex.abs (toC inp + (⟨r * c, r * s⟩ : ℂ) * toC st)
      ≤ Complex.abs (toC inp) + Complex.abs ((⟨r * c, r * s⟩ : ℂ) * toC st) :=
        Complex.abs.add_le _ _
    _ = Complex.abs (toC inp) + r * Complex.abs (toC st) := by
        rw [map_mul, abs_pole r c s hr hcs]

theorem div_pow_le_div_pow (A q : ℝ) (hA : 0 ≤ A) (hq0 : 0 < q) (hq1 : q ≤ 1)
    (j k : ℕ) (hjk : j ≤ k) : A / q ^ j ≤ A / q ^ k := by
  have hk : q ^ k ≤ q ^ j := pow_le_pow_of_le_one (le_of_lt hq0) hq1 hjk
  rw [div_le_div_iff (pow_pos hq0 j) (pow_pos hq0 k)]
  exact mul_le_mul_of_nonneg_left hk hA

/-- One `process` call preserves the per-stage geometric-series state bounds
`|state_k| ≤ gain·M/(1−r)^(k+1)` and keeps the returned magnitude below
`gain·M/(1−r)^4`. -/
theorem process_step_bounds (f : GammatoneFilter) (x M : ℝ)
    (hr0 : 0 ≤ f.r) (hr1 : f.r < 1)
    (hcs : f.cos_omega * f.cos_omega + f.sin_omega * f.sin_omega = 1)
    (hg : 0 ≤ f.gain) (hM : 0 ≤ M) (hx : |x| ≤ M)
    (h0 : cnorm f.state0 ≤ f.gain * M / (1 - f.r))
    (h1 : cnorm f.state1 ≤ f.gain * M / (1 - f.r) ^ 2)
    (h2 : cnorm f.state2 ≤ f.gain * M / (1 - f.r) ^ 3)
    (h3 : cnorm f.state3 ≤ f.gain * M / (1 - f.r) ^ 4) :
    cnorm (f.process x).2.state0 ≤ f.gain * M / (1 - f.r) ∧
    cnorm (f.process x).2.state1 ≤ f.gain * M / (1 - f.r) ^ 2 ∧
    cnorm (f.process x).2.state2 ≤ f.gain * M / (1 - f.r) ^ 3 ∧
    cnorm (f.process x).2.state3 ≤ f.gain * M / (1 - f.r) ^ 4 ∧
    (f.process x).1 ≤ f.gain * M / (1 - f.r) ^ 4 := by
  have hq : 0 < 1 - f.r := by linarith
  have hqne : (1 - f.r) ≠ 0 := ne_of_gt hq
  have hin : cnorm (x * f.gain, 0) ≤ f.gain * M := by
    rw [cnorm_pair_zero, abs_mul, abs_of_nonneg hg, mul_comm]
    exact mul_le_mul_of_nonneg_left hx hg
  have e0 : f.gain * M + f.r * (f.gain * M / (1 - f.r)) =
      f.gain * M / (1 - f.r) := by field_simp; ring
  have e1 : f.gain * M / (1 - f.r) + f.r * (f.gain * M / (1 - f.r) ^ 2) =
      f.gain * M / (1 - f.r) ^ 2 := by field_simp; ring
  have e2 : f.gain * M / (1 - f.r) ^ 2 + f.r * (f.gain * M / (1 - f.r) ^ 3) =
      f.gain * M / (1 - f.r) ^ 3 := by field_simp; ring
  have e3 : f.gain * M / (1 - f.r) ^ 3 + f.r * (f.gain * M / (1 - f.r) ^ 4) =
      f.gain * M / (1 - f.r) ^ 4 := by field_simp; ring
  have hn0 : cnorm (resonate f.r f.cos_omega f.sin_omega (x * f.gain, 0) f.state0)
      ≤ f.gain * M / (1 - f.r) := by
    refine le_trans (cnorm_resonate_le _ _ _ hr0 hcs _ _) ?_
    rw [← e0]
    exact add_le_add hin (mul_le_mul_of_nonneg_left h0 hr0)
  have hn1 : cnorm (resonate f.r f.cos_omega f.sin_omega
        (resonate f.r f.cos_omega f.sin_omega (x * f.gain, 0) f.state0) f.state1)
      ≤ f.gain * M / (1 - f.r) ^ 2 := by
    refine le_trans (cnorm_resonate_le _ _ _ hr0 hcs _ _) ?_
    rw [← e1]
    exact add_le_add hn0 (mul_le_mul_of_nonneg_left h1 hr0)
  have hn2 : cnorm (resonate f.r f.cos_omega f.sin_omega
        (resonate f.r f.cos_omega f.sin_omega
          (resonate f.r f.cos_omega f.sin_omega (x * f.gain, 0) f.state0)
          f.state1) f.state2)
      ≤ f.gain * M / (1 - f.r) ^ 3 := by
    refine le_trans (cnorm_resonate_le _ _ _ hr0 hcs _ _) ?_
    rw [← e2]
    exact add_le_add hn1 (mul_le_mul_of_nonneg_left h2 hr0)
  have hn3 : cnorm (resonate f.r f.cos_omega f.sin_omega
        (resonate f.r f.cos_omega f.sin_omega
          (resonate f.r f.cos_omega f.sin_omega
            (resonate f.r f.cos_omega f.sin_omega (x * f.gain, 0) f.state0)
            f.state1) f.state2) f.state3)
      ≤ f.gain * M / (1 - f.r) ^ 4 := by
    refine le_trans (cnorm_resonate_le _ _ _ hr0 hcs _ _) ?_
    rw [← e3]
    exact add_le_add hn2 (mul_le_mul_of_nonneg_left h3 hr0)
  exact ⟨hn0, hn1, hn2, hn3, hn3⟩

/-- Processing a whole bounded sample list keeps every output magnitude and
every stage state within the geometric-series bounds. -/
theorem processList_bounds (M : ℝ) (hM : 0 ≤ M) :
    ∀ (xs : List ℝ) (f : GammatoneFilter),
      0 ≤ f.r → f.r < 1 →
      f.cos_omega * f.cos_omega + f.sin_omega * f.sin_omega = 1 →
      0 ≤ f.gain →
      (∀ x ∈ xs, |x| ≤ M) →
      cnorm f.state0 ≤ f.gain * M / (1 - f.r) →
      cnorm f.state1 ≤ f.gain * M / (1 - f.r) ^ 2 →
      cnorm f.state2 ≤ f.gain * M / (1 - f.r) ^ 3 →
      cnorm f.state3 ≤ f.gain * M / (1 - f.r) ^ 4 →
      (∀ m ∈ (f.processList xs).1, m ≤ f.gain * M / (1 - f.r) ^ 4) ∧
      cnorm (f.processList xs).2.state0 ≤ f.gain * M / (1 - f.r) ∧
      cnorm (f.processList xs).2.state1 ≤ f.gain * M / (1 - f.r) ^ 2 ∧
      cnorm (f.processList xs).2.state2 ≤ f.gain * M / (1 - f.r) ^ 3 ∧
      cnorm (f.processList xs).2.state3 ≤ f.gain * M / (1 - f.r) ^ 4 := by
  intro xs
  induction xs with
  | nil =>
      intro f _ _ _ _ _ h0 h1 h2 h3
      exact ⟨fun m hm => absurd hm (List.not_mem_nil m), h0, h1, h2, h3⟩
  | cons x rest ih =>
      intro f hr0 hr1 hcs hg hxs h0 h1 h2 h3
      have hx : |x| ≤ M := hxs x (List.mem_cons_self x rest)
      have hrest : ∀ y ∈ rest, |y| ≤ M := fun y hy =>
        hxs y (List.mem_cons_of_mem x hy)
      obtain ⟨hn0, hn1, hn2, hn3, hout⟩ :=
        process_step_bounds f x M hr0 hr1 hcs hg hM hx h0 h1 h2 h3
      obtain ⟨ihout, ih0, ih1, ih2, ih3⟩ :=
        ih (f.process x).2 hr0 hr1 hcs hg hrest hn0 hn1 hn2 hn3
      refine ⟨?_, ih0, ih1, ih2, ih3⟩
      intro m hm
      rcases List.mem_cons.mp hm with hm | hm
      · exact hm ▸ hout
      · exact ihout m hm

/-- C3: a gammatone filter configured with positive bandwidth and sample rate
is BIBO stable — for every input bound `M` there is a bound `B` such that
processing any sample sequence with `|x| ≤ M` keeps all four complex state
pairs and every returned magnitude at or below `B`. -/
theorem gammatone_filter_bibo (center bw sr M : ℝ)
    (hbw : 0 < bw) (hsr : 0 < sr) (hM : 0 ≤ M) :
    ∃ B : ℝ, ∀ xs : List ℝ, (∀ x ∈ xs, |x| ≤ M) →
      (∀ m ∈ ((GammatoneFilter.new center bw sr).processList xs).1, m ≤ B) ∧
      cnorm ((GammatoneFilter.new center bw sr).processList xs).2.state0 ≤ B ∧
      cnorm ((GammatoneFilter.new center bw sr).processList xs).2.state1 ≤ B ∧
      cnorm ((GammatoneFilter.new center bw sr).processList xs).2.state2 ≤ B ∧
      cnorm ((GammatoneFilter.new center bw sr).processList xs).2.state3 ≤ B := by
  obtain ⟨hrpos, hr1⟩ := pole_radius_bounds center bw sr hbw hsr
  have hr0 : 0 ≤ (GammatoneFilter.new center bw sr).r := le_of_lt hrpos
  have hq : 0 < 1 - (GammatoneFilter.new center bw sr).r := by linarith
  have hq1 : 1 - (GammatoneFilter.new center bw sr).r ≤ 1 := by linarith
  have hcs : (GammatoneFilter.new center bw sr).cos_omega *
        (GammatoneFilter.new center bw sr).cos_omega +
      (GammatoneFilter.new center bw sr).sin_omega *
        (GammatoneFilter.new center bw sr).sin_omega = 1 := by
    show Real.cos (2 * Real.pi * center / sr) * Real.cos (2 * Real.pi * center / sr) +
        Real.sin (2 * Real.pi * center / sr) * Real.sin (2 * Real.pi * center / sr) = 1
    have h := Real.sin_sq_add_cos_sq (2 * Real.pi * center / sr)
    rw [sq, sq] at h
    linarith
  have hg : 0 ≤ (GammatoneFilter.new center bw sr).gain := by
    show (0 : ℝ) ≤ (1 - (GammatoneFilter.new center bw sr).r) ^ 4 * 2
    positivity
  have hA : 0 ≤ (GammatoneFilter.new center bw sr).gain * M := mul_nonneg hg hM
  have hzero : ∀ k : ℕ, cnorm ((0 : ℝ), (0 : ℝ)) ≤
      (GammatoneFilter.new center bw sr).gain * M /
        (1 - (GammatoneFilter.new center bw sr).r) ^ k := by
    intro k
    have : cnorm ((0 : ℝ), (0 : ℝ)) = 0 := by
      rw [cnorm]
      simp
    rw [this]
    exact div_nonneg hA (pow_nonneg (le_of_lt hq) k)
  refine ⟨(GammatoneFilter.new center bw sr).gain * M /
    (1 - (GammatoneFilter.new center bw sr).r) ^ 4, ?_⟩
  intro xs hxs
  obtain ⟨hout, h0, h1, h2, h3⟩ :=
    processList_bounds M hM xs (GammatoneFilter.new center bw sr) hr0 hr1 hcs hg hxs
      (by have := hzero 1; rw [pow_one] at this; exact this)
      (hzero 2) (hzero 3) (hzero 4)
  refine ⟨hout, ?_, ?_, ?_, h3⟩
  · refine le_trans h0 ?_
    have := div_pow_le_div_pow ((GammatoneFilter.new center bw sr).gain * M)
      (1 - (GammatoneFilter.new center bw sr).r) hA hq hq1 1 4 (by norm_num)
    rw [pow_one] at this
    exact this
  · exact le_trans h1 (div_pow_le_div_pow _ _ hA hq hq1 2 4 (by norm_num))
  · exact le_trans h2 (div_pow_le_div_pow _ _ hA hq hq1 3 4 (by norm_num))

/-- Witness for C3: bandwidth 100 Hz, sample rate 48 kHz, input bound 1. -/
theorem gammatone_filter_bibo_witness :
    (0 : ℝ) < 100 ∧ (0 : ℝ) < 48000 ∧ (0 : ℝ) ≤ 1 ∧
    (∃ B : ℝ, ∀ xs : List ℝ, (∀ x ∈ xs, |x| ≤ 1) →
      (∀ m ∈ ((GammatoneFilter.new 1000 100 48000).processList xs).1, m ≤ B) ∧
      cnorm ((GammatoneFilter.new 1000 100 48000).processList xs).2.state0 ≤ B ∧
      cnorm ((GammatoneFilter.new 1000 100 48000).processList xs).2.state1 ≤ B ∧
      cnorm ((GammatoneFilter.new 1000 100 48000).processList xs).2.state2 ≤ B ∧
      cnorm ((GammatoneFilter.new 1000 100 48000).processList xs).2.state3 ≤ B) :=
  ⟨by norm_num, by norm_num, by norm_num,
    gammatone_filter_bibo 1000 100 48000 1 (by norm_num) (by norm_num) (by norm_num)⟩

/-! ## C1: shape of `generate_bands` -/

theorem hz_to_bark_lt {x y : ℝ} (hx : 0 < x) (hxy : x < y) :
    hz_to_bark x < hz_to_bark y := by
  unfold hz_to_bark
  have hdx : (0 : ℝ) < 1960 + x := by linarith
  have hdy : (0 : ℝ) < 1960 + y := by linarith
  have : 26.81 * x / (1960 + x) < 26.81 * y / (1960 + y) := by
    rw [div_lt_div_iff hdx hdy]
    nlinarith
  linarith

theorem hz_to_bark_lt_top {h : ℝ} (hh : 0 < h) : hz_to_bark h < 26.28 := by
  unfold hz_to_bark
  have hd : (0 : ℝ) < 1960 + h := by linarith
  have : 26.81 * h / (1960 + h) < 26.81 := by
    rw [div_lt_iff hd]
    nlinarith
  linarith

theorem bark_to_hz_lt {b1 b2 : ℝ} (h12 : b1 < b2) (h2 : b2 < 26.28) :
    bark_to_hz b1 < bark_to_hz b2 := by
  unfold bark_to_hz
  have hd1 : (0 : ℝ) < 26.28 - b1 := by linarith
  have hd2 : (0 : ℝ) < 26.28 - b2 := by linarith
  rw [div_lt_div_iff hd1 hd2]
  nlinarith

theorem hz_to_erb_lt {x y : ℝ} (hx : 0 < x) (hxy : x < y) :
    hz_to_erb x < hz_to_erb y := by
  unfold hz_to_erb
  have harg : (0 : ℝ) < 4.37 * x / 1000 + 1 := by positivity
  have hlt : 4.37 * x / 1000 + 1 < 4.37 * y / 1000 + 1 := by linarith
  have := Real.logb_lt_logb (by norm_num : (1 : ℝ) < 10) harg hlt
  linarith

theorem erb_to_hz_lt {e1 e2 : ℝ} (h : e1 < e2) : erb_to_hz e1 < erb_to_hz e2 := by
  unfold erb_to_hz
  have : (10 : ℝ) ^ (e1 / 21.4) < (10 : ℝ) ^ (e2 / 21.4) :=
    (Real.rpow_lt_rpow_left_iff (by norm_num)).mpr (by gcongr <;> norm_num)
  have h1000 : (0 : ℝ) < 1000 / 4.37 := by norm_num
  calc ((10 : ℝ) ^ (e1 / 21.4) - 1) * 1000 / 4.37
      = ((10 : ℝ) ^ (e1 / 21.4) - 1) * (1000 / 4.37) := by ring
    _ < ((10 : ℝ) ^ (e2 / 21.4) - 1) * (1000 / 4.37) := by
        apply mul_lt_mul_of_pos_right _ h1000
        linarith
    _ = ((10 : ℝ) ^ (e2 / 21.4) - 1) * 1000 / 4.37 := by ring

theorem hz_to_mel_lt {x y : ℝ} (hx : 0 < x) (hxy : x < y) :
    hz_to_mel x < hz_to_mel y := by
  unfold hz_to_mel
  have harg : (0 : ℝ) < 1 + x / 700 := by positivity
  have hlt : 1 + x / 700 < 1 + y / 700 := by linarith
  have := Real.logb_lt_logb (by norm_num : (1 : ℝ) < 10) harg hlt
  linarith

theorem mel_to_hz_lt {m1 m2 : ℝ} (h : m1 < m2) : mel_to_hz m1 < mel_to_hz m2 := by
  unfold mel_to_hz
  have : (10 : ℝ) ^ (m1 / 2595) < (10 : ℝ) ^ (m2 / 2595) :=
    (Real.rpow_lt_rpow_left_iff (by norm_num)).mpr (by gcongr <;> norm_num)
  nlinarith

theorem range_map_getD {α : Type} (f : ℕ → α) (n i : ℕ) (h : i < n) (d : α) :
    ((List.range n).map f).getD i d = f i := by
  rw [List.getD_eq_getElem _ _ (by simpa using h)]
  simp

theorem range_map_pairwise {α : Type} (f : ℕ → α) (n : ℕ) (R : α → α → Prop)
    (h : ∀ i j, i < j → j < n → R (f i) (f j)) :
    ((List.range n).map f).Pairwise R := by
  rw [List.pairwise_iff_getElem]
  intro i j hi hj hij
  simp only [List.getElem_map, List.getElem_range]
  exact h i j hij (by simpa using hj)

theorem generate_bands_spec_linear (n : ℕ) (mn mx : ℝ)
    (hn : 1 ≤ n) (h0 : 0 < mn) (hlt : mn < mx) :
    ((generate_bands .Linear n mn mx).getD 0 default).low_hz = mn ∧
    ((generate_bands .Linear n mn mx).getD (n - 1) default).high_hz = mx ∧
    (generate_bands .Linear n mn mx).Pairwise
      (fun a b => a.center_hz < b.center_hz) := by
  have hnR : (0 : ℝ) < (n : ℝ) := by
    have : 0 < n := by omega
    exact_mod_cast this
  have hst : 0 < (mx - mn) / (n : ℝ) := div_pos (by linarith) hnR
  refine ⟨?_, ?_, ?_⟩
  · simp only [generate_bands]
    rw [range_map_getD _ n 0 (by omega)]
    simp
  · simp only [generate_bands]
    rw [range_map_getD _ n (n - 1) (by omega)]
    show mn + ((n - 1 : ℕ) : ℝ) * ((mx - mn) / (n : ℝ)) + (mx - mn) / (n : ℝ) = mx
    rw [Nat.cast_sub hn]
    field_simp
    ring
  · simp only [generate_bands]
    apply range_map_pairwise
    intro i j hij hjn
    show (mn + (i : ℝ) * ((mx - mn) / (n : ℝ)) +
          (mn + (i : ℝ) * ((mx - mn) / (n : ℝ)) + (mx - mn) / (n : ℝ))) / 2 <
        (mn + (j : ℝ) * ((mx - mn) / (n : ℝ)) +
          (mn + (j : ℝ) * ((mx - mn) / (n : ℝ)) + (mx - mn) / (n : ℝ))) / 2
    have hijR : (i : ℝ) < (j : ℝ) := by exact_mod_cast hij
    nlinarith [mul_lt_mul_of_pos_right hijR hst]

theorem generate_bands_spec_log (n : ℕ) (mn mx : ℝ)
    (hn : 1 ≤ n) (h0 : 0 < mn) (hlt : mn < mx) :
    ((generate_bands .Log n mn mx).getD 0 default).low_hz = mn ∧
    ((generate_bands .Log n mn mx).getD (n - 1) default).high_hz = mx ∧
    (generate_bands .Log n mn mx).Pairwise
      (fun a b => a.center_hz < b.center_hz) := by
  have hmx : 0 < mx := lt_trans h0 hlt
  have hnR : (0 : ℝ) < (n : ℝ) := by
    have : 0 < n := by omega
    exact_mod_cast this
  have hnne : (n : ℝ) ≠ 0 := ne_of_gt hnR
  have hab : Real.logb 2 mn < Real.logb 2 mx :=
    Real.logb_lt_logb (by norm_num) h0 hlt
  have hst : 0 < (Real.logb 2 mx - Real.logb 2 mn) / (n : ℝ) :=
    div_pos (by linarith) hnR
  refine ⟨?_, ?_, ?_⟩
  · simp only [generate_bands]
    rw [range_map_getD _ n 0 (by omega)]
    show (2 : ℝ) ^ (Real.logb 2 mn +
        ((0 : ℕ) : ℝ) * ((Real.logb 2 mx - Real.logb 2 mn) / (n : ℝ))) = mn
    rw [Nat.cast_zero, zero_mul, add_zero,
      Real.rpow_logb (by norm_num) (by norm_num) h0]
  · simp only [generate_bands]
    rw [range_map_getD _ n (n - 1) (by omega)]
    show (2 : ℝ) ^ (Real.logb 2 mn +
        (((n - 1 : ℕ) : ℝ) + 1) * ((Real.logb 2 mx - Real.logb 2 mn) / (n : ℝ))) = mx
    rw [show ((n - 1 : ℕ) : ℝ) + 1 = (n : ℝ) by rw [Nat.cast_sub hn]; push_cast; ring]
    have hexp : Real.logb 2 mn +
        (n : ℝ) * ((Real.logb 2 mx - Real.logb 2 mn) / (n : ℝ)) = Real.logb 2 mx := by
      field_simp
    rw [hexp, Real.rpow_logb (by norm_num) (by norm_num) hmx]
  · simp only [generate_bands]
    apply range_map_pairwise
    intro i j hij hjn
    show Real.sqrt
        ((2 : ℝ) ^ (Real.logb 2 mn +
            (i : ℝ) * ((Real.logb 2 mx - Real.logb 2 mn) / (n : ℝ))) *
          (2 : ℝ) ^ (Real.logb 2 mn +
            ((i : ℝ) + 1) * ((Real.logb 2 mx - Real.logb 2 mn) / (n : ℝ)))) <
      Real.sqrt
        ((2 : ℝ) ^ (Real.logb 2 mn +
            (j : ℝ) * ((Real.logb 2 mx - Real.logb 2 mn) / (n : ℝ))) *
          (2 : ℝ) ^ (Real.logb 2 mn +
            ((j : ℝ) + 1) * ((Real.logb 2 mx - Real.logb 2 mn) / (n : ℝ))))
    have hijR : (i : ℝ) < (j : ℝ) := by exact_mod_cast hij
    have hlo : (2 : ℝ) ^ (Real.logb 2 mn +
          (i : ℝ) * ((Real.logb 2 mx - Real.logb 2 mn) / (n : ℝ))) <
        (2 : ℝ) ^ (Real.logb 2 mn +
          (j : ℝ) * ((Real.logb 2 mx - Real.logb 2 mn) / (n : ℝ))) := by
      apply (Real.rpow_lt_rpow_left_iff (by norm_num : (1 : ℝ) < 2)).mpr
      nlinarith [mul_lt_mul_of_pos_right hijR hst]
    have hhi : (2 : ℝ) ^ (Real.logb 2 mn +
          ((i : ℝ) + 1) * ((Real.logb 2 mx - Real.logb 2 mn) / (n : ℝ))) <
        (2 : ℝ) ^ (Real.logb 2 mn +
          ((j : ℝ) + 1) * ((Real.logb 2 mx - Real.logb 2 mn) / (n : ℝ))) := by
      apply (Real.rpow_lt_rpow_left_iff (by norm_num : (1 : ℝ) < 2)).mpr
      have : ((i : ℝ) + 1) < ((j : ℝ) + 1) := by
        push_cast
        linarith
      nlinarith [mul_lt_mul_of_pos_right this hst]
    apply Real.sqrt_lt_sqrt
    · exact mul_nonneg (Real.rpow_nonneg (by norm_num) _)
        (Real.rpow_nonneg (by norm_num) _)
    · exact mul_lt_mul'' hlo hhi (Real.rpow_nonneg (by norm_num) _)
        (Real.rpow_nonneg (by norm_num) _)

theorem generate_bands_spec_bark (n : ℕ) (mn mx : ℝ)
    (hn : 1 ≤ n) (h0 : 0 < mn) (hlt : mn < mx) :
    ((generate_bands .Bark n mn mx).getD 0 default).low_hz = mn ∧
    ((generate_bands .Bark n mn mx).getD (n - 1) default).high_hz = mx ∧
    (generate_bands .Bark n mn mx).Pairwise
      (fun a b => a.center_hz < b.center_hz) := by
  have hmx : 0 < mx := lt_trans h0 hlt
  have hnR : (0 : ℝ) < (n : ℝ) := by
    have : 0 < n := by omega
    exact_mod_cast this
  have hnne : (n : ℝ) ≠ 0 := ne_of_gt hnR
  have hab : hz_to_bark mn < hz_to_bark mx := hz_to_bark_lt h0 hlt
  have htop : hz_to_bark mx < 26.28 := hz_to_bark_lt_top hmx
  have hst : 0 < (hz_to_bark mx - hz_to_bark mn) / (n : ℝ) :=
    div_pos (by linarith) hnR
  have hnst : (n : ℝ) * ((hz_to_bark mx - hz_to_bark mn) / (n : ℝ)) =
      hz_to_bark mx - hz_to_bark mn := by
    field_simp
  refine ⟨?_, ?_, ?_⟩
  · simp only [generate_bands]
    rw [range_map_getD _ n 0 (by omega)]
    show bark_to_hz (hz_to_bark mn +
        ((0 : ℕ) : ℝ) * ((hz_to_bark mx - hz_to_bark mn) / (n : ℝ))) = mn
    rw [Nat.cast_zero, zero_mul, add_zero, bark_roundtrip mn h0]
  · simp only [generate_bands]
    rw [range_map_getD _ n (n - 1) (by omega)]
    show bark_to_hz (hz_to_bark mn +
        (((n - 1 : ℕ) : ℝ) + 1) * ((hz_to_bark mx - hz_to_bark mn) / (n : ℝ))) = mx
    rw [show ((n - 1 : ℕ) : ℝ) + 1 = (n : ℝ) by rw [Nat.cast_sub hn]; push_cast; ring, hnst]
    rw [show hz_to_bark mn + (hz_to_bark mx - hz_to_bark mn) = hz_to_bark mx by ring,
      bark_roundtrip mx hmx]
  · simp only [generate_bands]
    apply range_map_pairwise
    intro i j hij hjn
    show bark_to_hz
        ((hz_to_bark mn + (i : ℝ) * ((hz_to_bark mx - hz_to_bark mn) / (n : ℝ)) +
          (hz_to_bark mn +
            ((i : ℝ) + 1) * ((hz_to_bark mx - hz_to_bark mn) / (n : ℝ)))) / 2) <
      bark_to_hz
        ((hz_to_bark mn + (j : ℝ) * ((hz_to_bark mx - hz_to_bark mn) / (n : ℝ)) +
          (hz_to_bark mn +
            ((j : ℝ) + 1) * ((hz_to_bark mx - hz_to_bark mn) / (n : ℝ)))) / 2)
    have hijR : (i : ℝ) < (j : ℝ) := by exact_mod_cast hij
    have hjnR : (j : ℝ) + 1 ≤ (n : ℝ) := by exact_mod_cast hjn
    apply bark_to_hz_lt
    · push_cast
      nlinarith [mul_lt_mul_of_pos_right hijR hst]
    · push_cast
      nlinarith [mul_nonneg (by linarith : (0 : ℝ) ≤ (n : ℝ) - ((j : ℝ) + 1)) hst.le,
        hnst, htop, hst]

theorem generate_bands_spec_erb (n : ℕ) (mn mx : ℝ)
    (hn : 1 ≤ n) (h0 : 0 < mn) (hlt : mn < mx) :
    ((generate_bands .ERB n mn mx).getD 0 default).low_hz = mn ∧
    ((generate_bands .ERB n mn mx).getD (n - 1) default).high_hz = mx ∧
    (generate_bands .ERB n mn mx).Pairwise
      (fun a b => a.center_hz < b.center_hz) := by
  have hmx : 0 < mx := lt_trans h0 hlt
  have hnR : (0 : ℝ) < (n : ℝ) := by
    have : 0 < n := by omega
    exact_mod_cast this
  have hnne : (n : ℝ) ≠ 0 := ne_of_gt hnR
  have hab : hz_to_erb mn < hz_to_erb mx := hz_to_erb_lt h0 hlt
  have hst : 0 < (hz_to_erb mx - hz_to_erb mn) / (n : ℝ) :=
    div_pos (by linarith) hnR
  have hnst : (n : ℝ) * ((hz_to_erb mx - hz_to_erb mn) / (n : ℝ)) =
      hz_to_erb mx - hz_to_erb mn := by
    field_simp
  refine ⟨?_, ?_, ?_⟩
  · simp only [generate_bands]
    rw [range_map_getD _ n 0 (by omega)]
    show erb_to_hz (hz_to_erb mn +
        ((0 : ℕ) : ℝ) * ((hz_to_erb mx - hz_to_erb mn) / (n : ℝ))) = mn
    rw [Nat.cast_zero, zero_mul, add_zero, erb_roundtrip mn h0]
  · simp only [generate_bands]
    rw [range_map_getD _ n (n - 1) (by omega)]
    show erb_to_hz (hz_to_erb mn +
        (((n - 1 : ℕ) : ℝ) + 1) * ((hz_to_erb mx - hz_to_erb mn) / (n : ℝ))) = mx
    rw [show ((n - 1 : ℕ) : ℝ) + 1 = (n : ℝ) by rw [Nat.cast_sub hn]; push_cast; ring, hnst]
    rw [show hz_to_erb mn + (hz_to_erb mx - hz_to_erb mn) = hz_to_erb mx by ring,
      erb_roundtrip mx hmx]
  · simp only [generate_bands]
    apply range_map_pairwise
    intro i j hij hjn
    show erb_to_hz
        ((hz_to_erb mn + (i : ℝ) * ((hz_to_erb mx - hz_to_erb mn) / (n : ℝ)) +
          (hz_to_erb mn +
            ((i : ℝ) + 1) * ((hz_to_erb mx - hz_to_erb mn) / (n : ℝ)))) / 2) <
      erb_to_hz
        ((hz_to_erb mn + (j : ℝ) * ((hz_to_erb mx - hz_to_erb mn) / (n : ℝ)) +
          (hz_to_erb mn +
            ((j : ℝ) + 1) * ((hz_to_erb mx - hz_to_erb mn) / (n : ℝ)))) / 2)
    have hijR : (i : ℝ) < (j : ℝ) := by exact_mod_cast hij
    apply erb_to_hz_lt
    push_cast
    nlinarith [mul_lt_mul_of_pos_right hijR hst]

theorem generate_bands_spec_mel (n : ℕ) (mn mx : ℝ)
    (hn : 1 ≤ n) (h0 : 0 < mn) (hlt : mn < mx) :
    ((generate_bands .Mel n mn mx).getD 0 default).low_hz = mn ∧
    ((generate_bands .Mel n mn mx).getD (n - 1) default).high_hz = mx ∧
    (generate_bands .Mel n mn mx).Pairwise
      (fun a b => a.center_hz < b.center_hz) := by
  have hmx : 0 < mx := lt_trans h0 hlt
  have hnR : (0 : ℝ) < (n : ℝ) := by
    have : 0 < n := by omega
    exact_mod_cast this
  have hnne : (n : ℝ) ≠ 0 := ne_of_gt hnR
  have hab : hz_to_mel mn < hz_to_mel mx := hz_to_mel_lt h0 hlt
  have hst : 0 < (hz_to_mel mx - hz_to_mel mn) / (n : ℝ) :=
    div_pos (by linarith) hnR
  have hnst : (n : ℝ) * ((hz_to_mel mx - hz_to_mel mn) / (n : ℝ)) =
      hz_to_mel mx - hz_to_mel mn := by
    field_simp
  refine ⟨?_, ?_, ?_⟩
  · simp only [generate_bands]
    rw [range_map_getD _ n 0 (by omega)]
    show mel_to_hz (hz_to_mel mn +
        ((0 : ℕ) : ℝ) * ((hz_to_mel mx - hz_to_mel mn) / (n : ℝ))) = mn
    rw [Nat.cast_zero, zero_mul, add_zero, mel_roundtrip mn h0]
  · simp only [generate_bands]
    rw [range_map_getD _ n (n - 1) (by omega)]
    show mel_to_hz (hz_to_mel mn +
        (((n - 1 : ℕ) : ℝ) + 1) * ((hz_to_mel mx - hz_to_mel mn) / (n : ℝ))) = mx
    rw [show ((n - 1 : ℕ) : ℝ) + 1 = (n : ℝ) by rw [Nat.cast_sub hn]; push_cast; ring, hnst]
    rw [show hz_to_mel mn + (hz_to_mel mx - hz_to_mel mn) = hz_to_mel mx by ring,
      mel_roundtrip mx hmx]
  · simp only [generate_bands]
    apply range_map_pairwise
    intro i j hij hjn
    show mel_to_hz
        ((hz_to_mel mn + (i : ℝ) * ((hz_to_mel mx - hz_to_mel mn) / (n : ℝ)) +
          (hz_to_mel mn +
            ((i : ℝ) + 1) * ((hz_to_mel mx - hz_to_mel mn) / (n : ℝ)))) / 2) <
      mel_to_hz
        ((hz_to_mel mn + (j : ℝ) * ((hz_to_mel mx - hz_to_mel mn) / (n : ℝ)) +
          (hz_to_mel mn +
            ((j : ℝ) + 1) * ((hz_to_mel mx - hz_to_mel mn) / (n : ℝ)))) / 2)
    have hijR : (i : ℝ) < (j : ℝ) := by exact_mod_cast hij
    apply mel_to_hz_lt
    push_cast
    nlinarith [mul_lt_mul_of_pos_right hijR hst]

/-- C1: for every scale, `num_bands ≥ 1` and `0 < min_hz < max_hz`,
`generate_bands` returns exactly `num_bands` entries with strictly ascending
center frequencies, the first band's lower edge at `min_hz` and the last band's
upper edge at `max_hz` (exactly, in the real-number model). -/
theorem generate_bands_spec (scale : Scale) (num_bands : ℕ) (min_hz max_hz : ℝ)
    (hn : 1 ≤ num_bands) (h0 : 0 < min_hz) (hlt : min_hz < max_hz) :
    (generate_bands scale num_bands min_hz max_hz).length = num_bands ∧
    ((generate_bands scale num_bands min_hz max_hz).getD 0 default).low_hz = min_hz ∧
    ((generate_bands scale num_bands min_hz max_hz).getD
      (num_bands - 1) default).high_hz = max_hz ∧
    (generate_bands scale num_bands min_hz max_hz).Pairwise
      (fun a b => a.center_hz < b.center_hz) := by
  refine ⟨generate_bands_length scale num_bands min_hz max_hz, ?_⟩
  cases scale
  case Linear => exact generate_bands_spec_linear num_bands min_hz max_hz hn h0 hlt
  case Log => exact generate_bands_spec_log num_bands min_hz max_hz hn h0 hlt
  case Bark => exact generate_bands_spec_bark num_bands min_hz max_hz hn h0 hlt
  case ERB => exact generate_bands_spec_erb num_bands min_hz max_hz hn h0 hlt
  case Mel => exact generate_bands_spec_mel num_bands min_hz max_hz hn h0 hlt

/-- Witness for C1: Linear scale, one band over [20, 40]. -/
theorem generate_bands_spec_witness :
    1 ≤ 1 ∧ (0 : ℝ) < 20 ∧ (20 : ℝ) < 40 ∧
    ((generate_bands .Linear 1 20 40).length = 1 ∧
     ((generate_bands .Linear 1 20 40).getD 0 default).low_hz = 20 ∧
     ((generate_bands .Linear 1 20 40).getD (1 - 1) default).high_hz = 40 ∧
     (generate_bands .Linear 1 20 40).Pairwise
       (fun a b => a.center_hz < b.center_hz)) :=
  ⟨by decide, by norm_num, by norm_num,
    generate_bands_spec .Linear 1 20 40 (by decide) (by norm_num) (by norm_num)⟩

/-! ## C2: configuration-time validation -/

/-- C2 counterexample: an invalid configuration (min_hz > max_hz, zero sample
rate) is not rejected — `configure` returns a configured instance that stores
the invalid parameters verbatim, builds per-band state for it, and silently
degrades (its band centers are strictly descending instead of ascending). -/
theorem configure_accepts_invalid_config :
    (GammatoneFilterbank.configure
        { num_bands := 2, min_hz := 100, max_hz := 50, sample_rate := 0,
          spacing := .Linear, smoothing_ms := 0 }).config =
      { num_bands := 2, min_hz := 100, max_hz := 50, sample_rate := 0,
        spacing := .Linear, smoothing_ms := 0 } ∧
    (GammatoneFilterbank.configure
        { num_bands := 2, min_hz := 100, max_hz := 50, sample_rate := 0,
          spacing := .Linear, smoothing_ms := 0 }).filters.length = 2 ∧
    ((GammatoneFilterbank.configure
        { num_bands := 2, min_hz := 100, max_hz := 50, sample_rate := 0,
          spacing := .Linear, smoothing_ms := 0 }).bands.getD 0 default).center_hz >
      ((GammatoneFilterbank.configure
        { num_bands := 2, min_hz := 100, max_hz := 50, sample_rate := 0,
          spacing := .Linear, smoothing_ms := 0 }).bands.getD 1 default).center_hz := by
  refine ⟨rfl, ?_, ?_⟩
  · simp [GammatoneFilterbank.configure, generate_bands_length]
  · show ((generate_bands .Linear 2 100 50).getD 0 default).center_hz >
        ((generate_bands .Linear 2 100 50).getD 1 default).center_hz
    simp only [generate_bands]
    rw [range_map_getD _ 2 0 (by omega), range_map_getD _ 2 1 (by omega)]
    show (100 + ((0 : ℕ) : ℝ) * ((50 - 100) / (2 : ℕ)) +
          (100 + ((0 : ℕ) : ℝ) * ((50 - 100) / (2 : ℕ)) + (50 - 100) / (2 : ℕ))) / 2 >
        (100 + ((1 : ℕ) : ℝ) * ((50 - 100) / (2 : ℕ)) +
          (100 + ((1 : ℕ) : ℝ) * ((50 - 100) / (2 : ℕ)) + (50 - 100) / (2 : ℕ))) / 2
    norm_num

/-- C2 (amended): neither `configure`/`with_config` nor the analyser builder
validates its parameters — every configuration, invalid ones included, yields
a configured instance that stores the parameters verbatim and sizes its
per-band state from `num_bands`; nothing fails at configuration time. -/
theorem configure_total_no_validation (cfg : FilterbankConfig)
    (b : AnalyserBuilder) :
    (GammatoneFilterbank.configure cfg).config = cfg ∧
    (GammatoneFilterbank.with_config cfg).config = cfg ∧
    (GammatoneFilterbank.configure cfg).bands.length = cfg.num_bands ∧
    (GammatoneFilterbank.configure cfg).filters.length = cfg.num_bands ∧
    b.build.num_bands = b.num_bands ∧
    b.build.gammatone.config.num_bands = b.num_bands := by
  refine ⟨rfl, rfl, generate_bands_length _ _ _ _, ?_, rfl, rfl⟩
  simp [GammatoneFilterbank.configure, generate_bands_length]

end

end Cortix
